import Mathlib

/-
  Verification development for the AMZTOOLS order-time-span dashboard
  (src/app.py).  The aggregation pipeline of the application is shallowly
  embedded below: pandas DataFrames become lists of records, the column
  set of a frame is tracked explicitly where column absence matters, and
  pandas float semantics (division by zero yielding ±inf / NaN instead of
  raising) are modelled by the `PFloat` type.
-/

set_option maxRecDepth 4000

/-! ## IEEE-style float values as produced by pandas column arithmetic

pandas performs float division elementwise: `x / 0` yields `inf` for
`x > 0`, `-inf` for `x < 0` and `NaN` for `x = 0`; no exception is raised.
Finite values are idealised as rationals. -/

inductive PFloat where
  | val (q : Rat)
  | inf
  | negInf
  | nan
deriving DecidableEq

def PFloat.div : PFloat → PFloat → PFloat
  | .nan, _ => .nan
  | _, .nan => .nan
  | .val a, .val b =>
      if b = 0 then (if 0 < a then .inf else if a < 0 then .negInf else .nan)
      else .val (a / b)
  | .val _, .inf => .val 0
  | .val _, .negInf => .val 0
  | .inf, .val b => if 0 ≤ b then .inf else .negInf
  | .negInf, .val b => if 0 ≤ b then .negInf else .inf
  | .inf, .inf => .nan
  | .inf, .negInf => .nan
  | .negInf, .inf => .nan
  | .negInf, .negInf => .nan

def PFloat.mul : PFloat → PFloat → PFloat
  | .nan, _ => .nan
  | _, .nan => .nan
  | .val a, .val b => .val (a * b)
  | .inf, .val b => if 0 < b then .inf else if b < 0 then .negInf else .nan
  | .val a, .inf => if 0 < a then .inf else if a < 0 then .negInf else .nan
  | .negInf, .val b => if 0 < b then .negInf else if b < 0 then .inf else .nan
  | .val a, .negInf => if 0 < a then .negInf else if a < 0 then .inf else .nan
  | .inf, .inf => .inf
  | .inf, .negInf => .negInf
  | .negInf, .inf => .negInf
  | .negInf, .negInf => .inf

def PFloat.sub : PFloat → PFloat → PFloat
  | .nan, _ => .nan
  | _, .nan => .nan
  | .val a, .val b => .val (a - b)
  | .inf, .val _ => .inf
  | .val _, .inf => .negInf
  | .negInf, .val _ => .negInf
  | .val _, .negInf => .inf
  | .inf, .inf => .nan
  | .negInf, .negInf => .nan
  | .inf, .negInf => .inf
  | .negInf, .inf => .negInf

/-! ## Python-level scalar values

Not every number in the dashboard is a numpy scalar.  `Series.sum()`
yields numpy scalars (`np.int64` / `np.float64`), whose arithmetic
follows IEEE semantics and never raises; `Series.nunique()` and the
literal `0` of a conditional expression yield plain Python `int`s, and
Python's own division by zero raises `ZeroDivisionError`.  An operation
with at least one numpy operand is performed by numpy (IEEE semantics);
one with two plain Python operands is performed by Python. -/

inductive PyErr where
  | zeroDivision
deriving DecidableEq

/-- A scalar as the metric-card expressions see it: `np` is a numpy
scalar, `py` a plain Python number. -/
inductive PyNum where
  | np (x : PFloat)
  | py (q : Rat)
deriving DecidableEq

def PyNum.sub : PyNum → PyNum → PyNum
  | .np a, .np b => .np (a.sub b)
  | .np a, .py b => .np (a.sub (.val b))
  | .py a, .np b => .np ((PFloat.val a).sub b)
  | .py a, .py b => .py (a - b)

/-- Division: numpy handles it (never raising) as soon as either
operand is a numpy scalar; plain Python division raises
`ZeroDivisionError` on a zero denominator. -/
def PyNum.div : PyNum → PyNum → Except PyErr PyNum
  | .np a, .np b => .ok (.np (a.div b))
  | .np a, .py b => .ok (.np (a.div (.val b)))
  | .py a, .np b => .ok (.np ((PFloat.val a).div b))
  | .py a, .py b => if b = 0 then .error .zeroDivision else .ok (.py (a / b))

def PyNum.mul : PyNum → PyNum → PyNum
  | .np a, .np b => .np (a.mul b)
  | .np a, .py b => .np (a.mul (.val b))
  | .py a, .np b => .np ((PFloat.val a).mul b)
  | .py a, .py b => .py (a * b)

/-- Round-half-to-even on a rational, as numpy/pandas `round` does on
finite floats (the float-representation idealisation aside). -/
def roundHalfEven (q : Rat) : Int :=
  let f : Int := ⌊q⌋
  let r : Rat := q - (f : Rat)
  if r < 1/2 then f
  else if 1/2 < r then f + 1
  else if f % 2 = 0 then f else f + 1

/-- `DataFrame.round(2)` on a finite value. -/
def roundRat2 (q : Rat) : Rat := (roundHalfEven (q * 100) : Rat) / 100

/-- `DataFrame.round(2)`: infinities and NaN are left untouched. -/
def PFloat.round2 : PFloat → PFloat
  | .val q => .val (roundRat2 q)
  | .inf => .inf
  | .negInf => .negInf
  | .nan => .nan

/-! ## Calendar dates

`datetime.date` values are embedded as a civil (year, month, day) triple
together with an absolute day count, so that `timedelta(days=n)`
arithmetic is integer subtraction on day counts. -/

structure CivilDate where
  y : Nat
  m : Nat
  d : Nat
deriving DecidableEq

/-- Absolute day count of a civil date (days since 0000-03-01, the
standard "days from civil" computation); valid for the Gregorian
calendar dates the dashboard handles. -/
def CivilDate.toDays (dt : CivilDate) : Int :=
  let yAdj : Nat := if dt.m ≤ 2 then dt.y - 1 else dt.y
  let era : Nat := yAdj / 400
  let yoe : Nat := yAdj % 400
  let mp : Nat := (dt.m + 9) % 12
  let doy : Nat := (153 * mp + 2) / 5 + (dt.d - 1)
  let doe : Nat := yoe * 365 + yoe / 4 + doy - yoe / 100
  ((era * 146097 + doe : Nat) : Int)

/-! ## The dimensioned table (output of `process_order_data`)

`process_order_data` parses the chosen time column (`errors='coerce'`),
drops rows whose value fails to parse, and derives `小时` (hour 0-23),
`星期` (weekday label, Monday first) and `订单日期` (calendar date).
The weekday label `WEEK_ORDER[i]` is embedded as the index `i : Fin 7`;
the categorical ordering used by `get_weekly_stats` is exactly the
ordering of these indices.  Dates are embedded as absolute day counts. -/

def WEEK_ORDER : List String := ["周一", "周二", "周三", "周四", "周五", "周六", "周日"]

/-- A successfully parsed timestamp: its derived calendar dimensions. -/
structure TS where
  hour : Fin 24
  weekday : Fin 7
  day : Int
deriving DecidableEq

/-- One row of the raw uploaded table.  `ts` is the result of parsing the
chosen time column: `none` models a value `pd.to_datetime` coerces to
`NaT` (the row is dropped). -/
structure RawRow where
  ts : Option TS
  orderId : Nat
  sku : Nat
  quantity : Int
  purchase : Rat
  sale : Rat
deriving DecidableEq

/-- One row of the dimensioned table produced by `process_order_data`:
小时 = `hour`, 星期 = `weekday`, 订单日期 = `orderDate`, 订单号 =
`orderId`, SKU = `sku`, 数量 = `quantity`, 采购总额 = `purchase`,
销售总额 = `sale`. -/
structure Row where
  hour : Fin 24
  weekday : Fin 7
  orderDate : Int
  orderId : Nat
  sku : Nat
  quantity : Int
  purchase : Rat
  sale : Rat
deriving DecidableEq

/-- `process_order_data`: coerce the time column, drop unparsable rows,
derive the three calendar dimensions. -/
def processOrderData (raws : List RawRow) : List Row :=
  raws.filterMap (fun rr => rr.ts.map (fun t =>
    { hour := t.hour, weekday := t.weekday, orderDate := t.day,
      orderId := rr.orderId, sku := rr.sku, quantity := rr.quantity,
      purchase := rr.purchase, sale := rr.sale }))

/-! ## Densifying aggregators -/

/-- Size of the group of `l` whose key (under `g`) is `k`
(`df.groupby(col).size()` at key `k`, and `0` if the key is absent —
exactly the value `merge(..., how='left').fillna(0)` leaves in the
densified frame). -/
def countOf {α κ : Type} [DecidableEq κ] (g : α → κ) (l : List α) (k : κ) : Nat :=
  (l.filter (fun x => decide (g x = k))).length

/-- `get_hourly_stats`, generic in the frame and its 小时 accessor:
group by hour, count rows, left-merge onto the full hour domain 0-23 and
zero-fill.  The merge keeps the `all_hours` order, hence the output is
the full ascending hour range. -/
def hourlyStatsOf {α : Type} (hof : α → Fin 24) (l : List α) : List (Fin 24 × Nat) :=
  (List.finRange 24).map (fun h => (h, countOf hof l h))

/-- `get_hourly_stats` on the dimensioned table. -/
def get_hourly_stats (l : List Row) : List (Fin 24 × Nat) :=
  hourlyStatsOf Row.hour l

def countHour (l : List Row) (h : Fin 24) : Nat := countOf Row.hour l h

def countWday (l : List Row) (w : Fin 7) : Nat := countOf Row.weekday l w

/-- `get_weekly_stats`: group by the weekday label and count rows, then
impose the categorical `WEEK_ORDER` ordering and sort.  There is NO
merge onto the full weekday domain: only the weekdays that actually
occur in `l` appear, in `WEEK_ORDER` order. -/
def get_weekly_stats (l : List Row) : List (Fin 7 × Nat) :=
  (List.finRange 7).filterMap (fun w =>
    if countWday l w = 0 then none else some (w, countWday l w))

/-- The full 周×小时 domain
`pd.MultiIndex.from_product([WEEK_ORDER, range(24)])`, weekday-major. -/
def crossDomain : List (Fin 7 × Fin 24) :=
  (List.finRange 7).flatMap (fun w => (List.finRange 24).map (fun h => (w, h)))

/-- Group size for a two-key grouping, zero when the key pair is absent. -/
def countOf2 {α : Type} (wof : α → Fin 7) (hof : α → Fin 24) (l : List α)
    (w : Fin 7) (h : Fin 24) : Nat :=
  (l.filter (fun x => decide (wof x = w ∧ hof x = h))).length

/-- `get_week_hour_cross_stats`, generic in the frame: group by
(星期, 小时), count rows, left-merge onto the full 168-cell product
domain and zero-fill. -/
def crossStatsOf {α : Type} (wof : α → Fin 7) (hof : α → Fin 24) (l : List α) :
    List ((Fin 7 × Fin 24) × Nat) :=
  crossDomain.map (fun k => (k, countOf2 wof hof l k.1 k.2))

/-- `get_week_hour_cross_stats` on the dimensioned table. -/
def get_week_hour_cross_stats (l : List Row) : List ((Fin 7 × Fin 24) × Nat) :=
  crossStatsOf Row.weekday Row.hour l

def countWH (l : List Row) (w : Fin 7) (h : Fin 24) : Nat :=
  countOf2 Row.weekday Row.hour l w h

/-! ## Column tracking and the SKU ranking aggregator -/

/-- The named columns whose presence the SKU aggregates depend on:
`sku` = SKU, `qty` = 数量, `purchase` = 采购总额, `sale` = 销售总额,
`orderId` = 订单号, `asin` = ASIN, `productName` = 产品名称. -/
inductive Col where
  | sku
  | qty
  | purchase
  | sale
  | orderId
  | asin
  | productName
deriving DecidableEq

/-- A frame together with its set of (measure) columns.  The derived
dimension columns (小时/星期/订单日期) are always present in a
dimensioned frame and are carried in `Row` itself. -/
structure Table where
  cols : List Col
  rows : List Row

/-- How a SKU aggregate can fail: `missingField c` models the
`st.error("数据中缺少必要字段：…")` signal followed by returning an
empty DataFrame; `keyError c` models an uncaught pandas `KeyError`
raised when an unchecked column is accessed. -/
inductive RankErr where
  | missingField (c : Col)
  | keyError (c : Col)
deriving DecidableEq

/-- The columns `get_sku_ranking` checks before aggregating
(`required_cols` in the source — note 订单号 is NOT among them). -/
def rankingRequiredCols : List Col := [.sku, .qty, .purchase, .sale]

def qtySum (l : List Row) : Int := (l.map Row.quantity).sum

def purchaseSum (l : List Row) : Rat := (l.map Row.purchase).sum

def saleSum (l : List Row) : Rat := (l.map Row.sale).sum

/-- `('订单号', 'nunique')`: number of distinct order ids in a group. -/
def nuniqueOrders (l : List Row) : Nat := ((l.map Row.orderId).dedup).length

/-- The rows of group `s` of `groupby('SKU')`. -/
def skuRows (l : List Row) (s : Nat) : List Row :=
  l.filter (fun r => decide (r.sku = s))

/-- The group keys of `groupby('SKU')`, in ascending order (groupby
sorts its keys). -/
def skuKeys (l : List Row) : List Nat :=
  List.insertionSort (fun a b => a ≤ b) ((l.map Row.sku).dedup)

/-- One row of the SKU ranking table: 序号 `seq`, 销量 `vol`, 订单量
`orders`, 采购总额 `purchase`, 销售额 `sales`, 净销售额 `net`,
平均价格 `avgPrice` (the last four rounded to 2 decimals). -/
structure SkuRow where
  seq : Nat
  sku : Nat
  vol : Int
  orders : Nat
  purchase : Rat
  sales : Rat
  net : Rat
  avgPrice : PFloat
deriving DecidableEq

/-- The aggregated (pre-ranking) row for SKU `s`: sums and nunique over
the group, derived columns 净销售额 and 平均价格 (a bare float division
销售额 / 销量 — no zero guard), then `round(2)` on the four money/ratio
columns.  `seq` is filled in by `buildRanking`. -/
def mkSkuRow (l : List Row) (s : Nat) : SkuRow :=
  let g := skuRows l s
  let vol := qtySum g
  let pur := purchaseSum g
  let sal := saleSum g
  { seq := 0, sku := s, vol := vol, orders := nuniqueOrders g,
    purchase := roundRat2 pur, sales := roundRat2 sal,
    net := roundRat2 (sal - pur),
    avgPrice := PFloat.round2 (PFloat.div (.val sal) (.val (vol : Rat))) }

instance : DecidableRel (fun a b : SkuRow => b.vol ≤ a.vol) :=
  fun a b => Int.decLe b.vol a.vol

/-- The computed ranking: aggregate per SKU, sort descending by 销量,
re-index, and insert the 1-based 序号 column.  (pandas `sort_values`
uses an unstable sort by default; ties in 销量 are modelled with a
stable sort, and no claim depends on tie order.) -/
def buildRanking (l : List Row) : List SkuRow :=
  let sorted := List.insertionSort (fun a b => b.vol ≤ a.vol)
    ((skuKeys l).map (mkSkuRow l))
  sorted.enum.map (fun p => { p.2 with seq := p.1 + 1 })

/-- `get_sku_ranking`: check each of `required_cols` in order and signal
the first missing one (empty result), otherwise aggregate — which
accesses 订单号 without any check, raising a `KeyError` when it is
absent. -/
def get_sku_ranking (t : Table) : Except RankErr (List SkuRow) :=
  match rankingRequiredCols.find? (fun c => !(decide (c ∈ t.cols))) with
  | some c => .error (.missingField c)
  | none =>
      if Col.orderId ∈ t.cols then .ok (buildRanking t.rows)
      else .error (.keyError .orderId)

/-! ## Headline sales metrics and the dashboard metric cards -/

/-- The metric dict built by `get_sales_metrics`: per anchor day the
quantity sum (`np.int64`), revenue sum (`np.float64`), distinct order
count (`Series.nunique()` — a plain Python `int`) and average unit
price.  The average IS zero-guarded in the source
(`... if sum > 0 else 0`): the `then` branch is a numpy float, the
`else` branch the plain Python int `0`.  The constant `*_cancel = 0`
entries are omitted. -/
structure SalesMetrics where
  todaySales : Int
  todayRevenue : Rat
  todayOrders : Nat
  todayAvgPrice : PyNum
  ydaySales : Int
  ydayRevenue : Rat
  ydayOrders : Nat
  ydayAvgPrice : PyNum
  lwSales : Int
  lwRevenue : Rat
  lwOrders : Nat
  lwAvgPrice : PyNum
deriving DecidableEq

def rowsOnDate (l : List Row) (d : Int) : List Row :=
  l.filter (fun r => decide (r.orderDate = d))

def get_sales_metrics (l : List Row) (today yday lw : Int) : SalesMetrics :=
  let td := rowsOnDate l today
  let yd := rowsOnDate l yday
  let lwd := rowsOnDate l lw
  { todaySales := qtySum td, todayRevenue := saleSum td,
    todayOrders := nuniqueOrders td,
    todayAvgPrice := if 0 < qtySum td then .np (.val (saleSum td / (qtySum td : Rat)))
      else .py 0,
    ydaySales := qtySum yd, ydayRevenue := saleSum yd,
    ydayOrders := nuniqueOrders yd,
    ydayAvgPrice := if 0 < qtySum yd then .np (.val (saleSum yd / (qtySum yd : Rat)))
      else .py 0,
    lwSales := qtySum lwd, lwRevenue := saleSum lwd,
    lwOrders := nuniqueOrders lwd,
    lwAvgPrice := if 0 < qtySum lwd then .np (.val (saleSum lwd / (qtySum lwd : Rat)))
      else .py 0 }

/-- The percentage change rendered on a metric card:
`(today - yesterday) / yesterday * 100`, evaluated directly inside the
f-string — no guard of any kind.  Whether a zero yesterday yields an
IEEE infinity or an uncaught `ZeroDivisionError` depends on whether the
operands are numpy scalars or plain Python numbers (the `* 100` factor
is a Python int literal and never raises). -/
def pctCard (t y : PyNum) : Except PyErr PyNum :=
  match PyNum.div (t.sub y) y with
  | .error e => .error e
  | .ok q => .ok (q.mul (.py 100))

/-- The four day-over-day percentage changes shown on the 销量 / 销售额 /
订单量 / 销售均价 metric cards.  The quantity and revenue sums are
numpy scalars; the order counts are plain Python ints; the average
prices are whatever `get_sales_metrics` stored. -/
def salesCards (m : SalesMetrics) :
    Except PyErr PyNum × Except PyErr PyNum × Except PyErr PyNum × Except PyErr PyNum :=
  (pctCard (.np (.val (m.todaySales : Rat))) (.np (.val (m.ydaySales : Rat))),
   pctCard (.np (.val m.todayRevenue)) (.np (.val m.ydayRevenue)),
   pctCard (.py (m.todayOrders : Rat)) (.py (m.ydayOrders : Rat)),
   pctCard m.todayAvgPrice m.ydayAvgPrice)

/-- The value `PFloat.div (.val x) (.val 0)` takes, by the sign of `x`:
what an unguarded numpy card division actually renders when yesterday
is 0. -/
def pctAtZero (x : Rat) : PFloat :=
  if 0 < x then .inf else if x < 0 then .negInf else .nan

/-! ## The SKU multi-period comparison -/

/-- One row of the joined multi-period table.  The six windows anchored
at reference date `D`: 今日 `[D,D]`, 昨日 `[D-1,D-1]`, 上周今日
`[D-7,D-7]`, plus the trailing windows `[D-6,D]`, `[D-13,D]`,
`[D-29,D]` whose only metric is the quantity sum. -/
structure MultiRow where
  sku : Nat
  todayVol : Int
  todayOrders : Nat
  todayRev : Rat
  ydayVol : Int
  ydayOrders : Nat
  ydayRev : Rat
  lwVol : Int
  lwOrders : Nat
  lwRev : Rat
  vol7 : Int
  vol14 : Int
  vol30 : Int
deriving DecidableEq

def trailingRows (l : List Row) (D : Int) (n : Int) : List Row :=
  l.filter (fun r => decide (D - n ≤ r.orderDate ∧ r.orderDate ≤ D))

/-- The metrics of SKU `s` across the six windows.  A SKU absent from a
window gets the empty group, whose sums / distinct counts are 0 —
exactly the value the chain of outer merges leaves there after
`fillna(0)`. -/
def mkMultiRow (l : List Row) (D : Int) (s : Nat) : MultiRow :=
  { sku := s,
    todayVol := qtySum (skuRows (rowsOnDate l D) s),
    todayOrders := nuniqueOrders (skuRows (rowsOnDate l D) s),
    todayRev := saleSum (skuRows (rowsOnDate l D) s),
    ydayVol := qtySum (skuRows (rowsOnDate l (D - 1)) s),
    ydayOrders := nuniqueOrders (skuRows (rowsOnDate l (D - 1)) s),
    ydayRev := saleSum (skuRows (rowsOnDate l (D - 1)) s),
    lwVol := qtySum (skuRows (rowsOnDate l (D - 7)) s),
    lwOrders := nuniqueOrders (skuRows (rowsOnDate l (D - 7)) s),
    lwRev := saleSum (skuRows (rowsOnDate l (D - 7)) s),
    vol7 := qtySum (skuRows (trailingRows l D 6) s),
    vol14 := qtySum (skuRows (trailingRows l D 13) s),
    vol30 := qtySum (skuRows (trailingRows l D 29) s) }

instance : DecidableRel (fun a b : Nat => a ≤ b) :=
  fun a b => Nat.decLe a b

/-- The SKU key set of the joined table: successive `how='outer'` merges
take the union of the key sets and sort it, so the final key list is the
sorted union of the SKUs observed in the six windows. -/
def skuDomain (l : List Row) (D : Int) : List Nat :=
  List.insertionSort (fun a b => a ≤ b)
    (((rowsOnDate l D).map Row.sku ++ (rowsOnDate l (D - 1)).map Row.sku ++
      (rowsOnDate l (D - 7)).map Row.sku ++ (trailingRows l D 6).map Row.sku ++
      (trailingRows l D 13).map Row.sku ++ (trailingRows l D 29).map Row.sku).dedup)

/-- The joined, zero-filled multi-period table. -/
def buildMulti (l : List Row) (D : Int) : List MultiRow :=
  (skuDomain l D).map (mkMultiRow l D)

/-- `get_sku_multi_period`: NO precondition check at all — the window
aggregations access SKU, 数量, 订单号 and 销售总额 directly, raising a
pandas `KeyError` on the first absent one. -/
def get_sku_multi_period (t : Table) (D : Int) : Except RankErr (List MultiRow) :=
  if Col.sku ∈ t.cols then
    if Col.qty ∈ t.cols then
      if Col.orderId ∈ t.cols then
        if Col.sale ∈ t.cols then .ok (buildMulti t.rows D)
        else .error (.keyError .sale)
      else .error (.keyError .orderId)
    else .error (.keyError .qty)
  else .error (.keyError .sku)

/-! ## The order-board range resolver and the custom-range path -/

/-- The preset tokens of the 订单分析看板 time-range button group:
近7天 / 近14天 / 近30天 / 上个月 / 全部数据 / custom start-end. -/
inductive TimePreset where
  | last7
  | last14
  | last30
  | lastMonth
  | allData
  | custom (s e : CivilDate)

/-- The module-level preset resolution of the order board: 近7天 uses
`(data_max_datetime - timedelta(days=7)).date()` — that is `max_date - 7`,
an EIGHT-day inclusive interval — and likewise 近14天 / 近30天 use 14
and 30; 上个月 is the previous calendar month; 全部数据 is
`[min_date, max_date]`; custom uses the two picked dates verbatim. -/
def resolveOrderRange (minD maxD : CivilDate) : TimePreset → Int × Int
  | .last7 => (maxD.toDays - 7, maxD.toDays)
  | .last14 => (maxD.toDays - 14, maxD.toDays)
  | .last30 => (maxD.toDays - 30, maxD.toDays)
  | .lastMonth =>
      let pm : CivilDate :=
        if maxD.m = 1 then ⟨maxD.y - 1, 12, 1⟩ else ⟨maxD.y, maxD.m - 1, 1⟩
      (pm.toDays, (⟨maxD.y, maxD.m, 1⟩ : CivilDate).toDays - 1)
  | .allData => (minD.toDays, maxD.toDays)
  | .custom s e => (s.toDays, e.toDays)

/-- What the order board does after resolving a range: either the
"所选时间范围内无订单数据" empty-result warning, or the four aggregates
computed from the filtered frame.  There is no invalid-range state:
the source has no `start > end` check anywhere. -/
instance {ε α : Type} [DecidableEq ε] [DecidableEq α] : DecidableEq (Except ε α) :=
  fun a b =>
    match a, b with
    | .ok x, .ok y =>
        if h : x = y then .isTrue (by rw [h]) else .isFalse (by intro hc; cases hc; exact h rfl)
    | .error x, .error y =>
        if h : x = y then .isTrue (by rw [h]) else .isFalse (by intro hc; cases hc; exact h rfl)
    | .ok _, .error _ => .isFalse (by intro hc; cases hc)
    | .error _, .ok _ => .isFalse (by intro hc; cases hc)

inductive OrderBoardState where
  | emptyWarning
  | computed (hourly : List (Fin 24 × Nat)) (weekly : List (Fin 7 × Nat))
      (cross : List ((Fin 7 × Fin 24) × Nat))
      (ranking : Except RankErr (List SkuRow))
deriving DecidableEq

def rangeFilter (l : List Row) (s e : Int) : List Row :=
  l.filter (fun r => decide (s ≤ r.orderDate ∧ r.orderDate ≤ e))

/-- The order-board pipeline for an already-resolved `(s, e)` interval
(in particular the custom branch): filter, then branch on emptiness. -/
def orderBoardRun (t : Table) (s e : Int) : OrderBoardState :=
  let f := rangeFilter t.rows s e
  if f.length = 0 then .emptyWarning
  else .computed (get_hourly_stats f) (get_weekly_stats f)
    (get_week_hour_cross_stats f) (get_sku_ranking ⟨t.cols, f⟩)

/-! ## Anomaly flag -/

/-- Modelled from the spec: §4.5 "Anomaly Flag" — no day-over-day
anomaly classifier exists anywhere in src/app.py, so the component is
modelled from the spec's words: with fewer than 3 distinct dates
classify insufficient-data; otherwise let `r` be the most recent day's
quantity total and `p` the prior day's; if `p = 0` classify spike when
`r > 0` else stable; otherwise `change = (r - p) / p * 100`, spike when
`change ≥ 30`, drop when `change ≤ -30`, else stable. -/
inductive AnomalyFlag where
  | spike
  | drop
  | stable
  | insufficientData
deriving DecidableEq

def distinctDates (l : List Row) : List Int := (l.map Row.orderDate).dedup

def listMax : List Int → Int
  | [] => 0
  | x :: t => t.foldl max x

/-- Modelled from the spec: the most recent distinct date of the
filtered window and the one before it. -/
def latestTwoDates (l : List Row) : Int × Int :=
  let ds := distinctDates l
  let m := listMax ds
  (m, listMax (ds.filter (fun d => decide (d < m))))

/-- Quantity total of one calendar day. -/
def dailyQty (l : List Row) (d : Int) : Int := qtySum (rowsOnDate l d)

/-- Modelled from the spec: §4.5 Anomaly Flag classification rule
(threshold ±30%). -/
def anomalyFlag (l : List Row) : AnomalyFlag :=
  if (distinctDates l).length < 3 then .insufficientData
  else
    let r := dailyQty l (latestTwoDates l).1
    let p := dailyQty l (latestTwoDates l).2
    if p = 0 then (if 0 < r then .spike else .stable)
    else
      let change : Rat := ((r - p : Int) : Rat) / (p : Rat) * 100
      if 30 ≤ change then .spike
      else if change ≤ -30 then .drop
      else .stable

/-! ## Concrete sample data used by counterexamples and witnesses -/

/-- Build a dimensioned row from its eight fields. -/
def exRow (h : Fin 24) (w : Fin 7) (d : Int) (oid s : Nat) (q : Int) (pu sa : Rat) : Row :=
  ⟨h, w, d, oid, s, q, pu, sa⟩

/-- All measure columns present. -/
def allCols : List Col := [.sku, .qty, .purchase, .sale, .orderId, .asin, .productName]

/-! ## Shared helper lemmas -/

/-- Filtering a duplicate-free list for one of its elements leaves
exactly that element. -/
theorem filter_decide_eq_singleton {α : Type} [DecidableEq α] :
    ∀ {l : List α}, l.Nodup → ∀ {a : α}, a ∈ l →
      l.filter (fun x => decide (x = a)) = [a] := by
  intro l
  induction l with
  | nil => intro _ a ha; cases ha
  | cons b t ih =>
    intro hnd a ha
    rw [List.nodup_cons] at hnd
    by_cases hba : b = a
    · rw [List.filter_cons, if_pos (by simp [hba])]
      have hnil : t.filter (fun x => decide (x = a)) = [] :=
        List.filter_eq_nil_iff.mpr (fun x hx => by
          simp only [decide_eq_true_eq]
          intro hxa
          apply hnd.1
          rw [hba, ← hxa]
          exact hx)
      rw [hnil, hba]
    · have hat : a ∈ t := by
        rcases List.mem_cons.mp ha with h | h
        · exact absurd h.symm hba
        · exact h
      rw [List.filter_cons, if_neg (by simp [hba])]
      exact ih hnd.2 hat

/-- Summing the group sizes of a `Fin n`-valued key over the full key
domain counts every row exactly once. -/
theorem sum_countOf {α : Type} {n : Nat} (f : α → Fin n) (l : List α) :
    (∑ h : Fin n, countOf f l h) = l.length := by
  induction l with
  | nil => simp [countOf]
  | cons a t ih =>
    have hsplit : ∀ h : Fin n, countOf f (a :: t) h
        = (if f a = h then 1 else 0) + countOf f t h := by
      intro h
      simp only [countOf, List.filter_cons]
      by_cases hfa : f a = h
      · simp [hfa, Nat.add_comm]
      · simp [hfa]
    calc (∑ h : Fin n, countOf f (a :: t) h)
        = ∑ h : Fin n, ((if f a = h then 1 else 0) + countOf f t h) :=
          Finset.sum_congr rfl (fun h _ => hsplit h)
      _ = (∑ h : Fin n, if f a = h then 1 else 0) + ∑ h : Fin n, countOf f t h :=
          Finset.sum_add_distrib
      _ = 1 + t.length := by rw [Finset.sum_ite_eq, ih]; simp
      _ = (a :: t).length := by simp [Nat.add_comm]

/-- `filterMap` with a graph-like function (each produced pair keeps its
input as first component) yields a key list that is a sublist of the
input list. -/
theorem filterMap_graph_sublist {α β : Type} (f : α → Option (α × β))
    (hf : ∀ a p, f a = some p → p.1 = a) :
    ∀ L : List α, ((L.filterMap f).map Prod.fst).Sublist L := by
  intro L
  induction L with
  | nil => simp
  | cons a t ih =>
    cases h : f a with
    | none =>
      rw [List.filterMap_cons, h]
      exact ih.cons a
    | some p =>
      rw [List.filterMap_cons, h, List.map_cons, hf a p h]
      exact ih.cons₂ a

/-- Row count of the dimensioned table: one row per raw row with a
parsable timestamp. -/
theorem length_processOrderData (raws : List RawRow) :
    (processOrderData raws).length = (raws.filter (fun r => r.ts.isSome)).length := by
  induction raws with
  | nil => rfl
  | cons a t ih =>
    unfold processOrderData at ih ⊢
    cases h : a.ts <;> simp [List.filterMap_cons, List.filter_cons, h, ih]

/-! ## C2: the hourly aggregate is dense, ordered, and totals the
retained rows -/

/-- C2 (confirmed).  For every raw input, the hourly aggregate of the
dimensioned table has exactly 24 rows whose keys are the hours 0..23 in
ascending order; the sum of its counts equals the number of rows
retained with a valid timestamp; and the empty table still yields the
24 all-zero rows, never an empty table. -/
theorem hourly_stats_dense_total (raws : List RawRow) :
    (get_hourly_stats (processOrderData raws)).length = 24
    ∧ (get_hourly_stats (processOrderData raws)).map Prod.fst = List.finRange 24
    ∧ List.Pairwise (fun a b : Fin 24 × Nat => a.1 < b.1)
        (get_hourly_stats (processOrderData raws))
    ∧ ((get_hourly_stats (processOrderData raws)).map Prod.snd).sum
        = (processOrderData raws).length
    ∧ (processOrderData raws).length = (raws.filter (fun r => r.ts.isSome)).length
    ∧ get_hourly_stats ([] : List Row) = (List.finRange 24).map (fun h => (h, 0)) := by
  have hmapfst : (get_hourly_stats (processOrderData raws)).map Prod.fst
      = List.finRange 24 := by
    simp [get_hourly_stats, hourlyStatsOf, List.map_map, Function.comp_def]
  refine ⟨?_, hmapfst, ?_, ?_, length_processOrderData raws, ?_⟩
  · simp [get_hourly_stats, hourlyStatsOf]
  · have h1 : ((get_hourly_stats (processOrderData raws)).map Prod.fst).Pairwise
        (fun a b : Fin 24 => a < b) := by
      rw [hmapfst]; exact List.pairwise_lt_finRange 24
    exact List.pairwise_map.mp h1
  · have h2 : ((List.finRange 24).map
        (fun h => countOf Row.hour (processOrderData raws) h)).sum
        = (processOrderData raws).length := by
      rw [← Fin.sum_univ_def]
      exact sum_countOf Row.hour (processOrderData raws)
    simpa [get_hourly_stats, hourlyStatsOf, List.map_map, Function.comp_def] using h2
  · rfl

/-! ## C3: the 近7天 preset -/

/-- C3 (corrected), counterexample: the 近7天 preset anchored at
max date 2024-03-10 does NOT yield (2024-03-04, 2024-03-10) as the
claim states. -/
theorem last7_preset_cex :
    resolveOrderRange ⟨2024, 1, 1⟩ ⟨2024, 3, 10⟩ .last7
      ≠ ((⟨2024, 3, 4⟩ : CivilDate).toDays, (⟨2024, 3, 10⟩ : CivilDate).toDays) := by
  decide

/-- C3 (corrected), amended: the 近7天 preset resolves to
`(max_date - 7 days, max_date)` — an 8-day inclusive interval —
because the source subtracts `timedelta(days=7)`; anchored at
2024-03-10 it yields (2024-03-03, 2024-03-10). -/
theorem last7_preset_amended :
    (∀ minD maxD : CivilDate,
        resolveOrderRange minD maxD .last7 = (maxD.toDays - 7, maxD.toDays))
    ∧ resolveOrderRange ⟨2024, 1, 1⟩ ⟨2024, 3, 10⟩ .last7
        = ((⟨2024, 3, 3⟩ : CivilDate).toDays, (⟨2024, 3, 10⟩ : CivilDate).toDays) :=
  ⟨fun _ _ => rfl, by decide⟩

/-! ## Cross-domain helper lemmas -/

theorem crossDomain_nodup : crossDomain.Nodup := by decide

theorem mem_crossDomain (k : Fin 7 × Fin 24) : k ∈ crossDomain := by
  cases k with
  | mk w h =>
    exact List.mem_flatMap.mpr
      ⟨w, List.mem_finRange w, List.mem_map_of_mem _ (List.mem_finRange h)⟩

theorem crossDomain_length : crossDomain.length = 168 := by decide

/-- Counting the rows of a key-graph list (`dom.map (fun x => (x, c x))`)
whose first component is a given key of a duplicate-free domain always
yields 1: re-grouping a dense aggregate counts its rows, not its
accumulated counts. -/
theorem countOf_fst_graph {κ : Type} [DecidableEq κ] (dom : List κ) (hnd : dom.Nodup)
    (c : κ → Nat) {k : κ} (hk : k ∈ dom) :
    countOf Prod.fst (dom.map (fun x => (x, c x))) k = 1 := by
  unfold countOf
  rw [List.filter_map]
  have hpred : ((fun x : κ × Nat => decide (x.1 = k)) ∘ (fun x => (x, c x)))
      = fun x => decide (x = k) := rfl
  rw [hpred, filter_decide_eq_singleton hnd hk]
  rfl

/-- Two-key analogue of `countOf_fst_graph` for the 168-cell domain. -/
theorem countOf2_fst_graph (dom : List (Fin 7 × Fin 24)) (hnd : dom.Nodup)
    (c : Fin 7 × Fin 24 → Nat) {w : Fin 7} {h : Fin 24} (hk : (w, h) ∈ dom) :
    countOf2 (fun p : (Fin 7 × Fin 24) × Nat => p.1.1) (fun p => p.1.2)
      (dom.map (fun x => (x, c x))) w h = 1 := by
  unfold countOf2
  rw [List.filter_map]
  have hpred : ((fun x : (Fin 7 × Fin 24) × Nat => decide (x.1.1 = w ∧ x.1.2 = h))
        ∘ (fun x => (x, c x)))
      = fun x : Fin 7 × Fin 24 => decide (x.1 = w ∧ x.2 = h) := rfl
  rw [hpred]
  have hconv : dom.filter (fun x : Fin 7 × Fin 24 => decide (x.1 = w ∧ x.2 = h))
      = dom.filter (fun x => decide (x = (w, h))) := by
    refine List.filter_congr ?_
    intro x _
    exact decide_eq_decide.mpr (by simp [Prod.ext_iff])
  rw [hconv, filter_decide_eq_singleton hnd hk]
  rfl

/-! ## C8: densification is not idempotent -/

/-- Two rows in hour 0 (different order ids). -/
def exRows8 : List Row := [exRow 0 0 0 1 1 1 0 0, exRow 0 0 0 2 1 1 0 0]

/-- C8 (corrected), counterexample: re-running the hourly densifying
aggregator on its own dense output is NOT a no-op — with two rows in
hour 0 the first pass records count 2, the second pass counts the
single hour-0 row of the dense output and records 1. -/
theorem densify_not_idempotent_cex :
    hourlyStatsOf Prod.fst (get_hourly_stats exRows8) ≠ get_hourly_stats exRows8 := by
  decide

/-- C8 (corrected), amended: re-running a densifying aggregator on its
own dense output preserves the key domain (24 hour rows / the 168
weekday×hour cells, in the same order) but replaces every count by 1 —
the row count of each key group — so totals are not preserved. -/
theorem densify_reapply_counts_rows (l : List Row) :
    hourlyStatsOf Prod.fst (get_hourly_stats l)
      = (List.finRange 24).map (fun h => (h, 1))
    ∧ crossStatsOf (fun p => p.1.1) (fun p => p.1.2) (get_week_hour_cross_stats l)
      = crossDomain.map (fun k => (k, 1)) := by
  constructor
  · simp only [get_hourly_stats, hourlyStatsOf]
    refine List.map_congr_left ?_
    intro h _
    rw [countOf_fst_graph (List.finRange 24) (List.nodup_finRange 24)
      (fun h2 => countOf Row.hour l h2) (List.mem_finRange h)]
  · simp only [get_week_hour_cross_stats, crossStatsOf]
    refine List.map_congr_left ?_
    intro k hk
    cases k with
    | mk w h =>
      rw [countOf2_fst_graph crossDomain crossDomain_nodup
        (fun k2 => countOf2 Row.weekday Row.hour l k2.1 k2.2) hk]

/-! ## C9: inverted custom range -/

def exTable9 : Table := ⟨allCols, [exRow 0 0 0 1 1 1 0 0]⟩

/-- C9 (corrected), counterexample: with custom start 1 > end 0 the
order board reaches the empty-result warning state (the
"所选时间范围内无订单数据" branch) — the claim states an invalid-range
condition is signalled instead and that no empty-result state occurs,
but no invalid-range check exists in the source. -/
theorem custom_inverted_empty_state_cex :
    orderBoardRun exTable9 1 0 = .emptyWarning := by decide

/-- C9 (corrected), amended: an inverted custom range is not rejected:
the filter simply matches no row, so the board always lands in the
empty-result warning state; aggregation indeed never runs, but via the
empty-result path, not via a named invalid-range condition. -/
theorem custom_inverted_range_amended (t : Table) (s e : Int) (h : e < s) :
    rangeFilter t.rows s e = [] ∧ orderBoardRun t s e = .emptyWarning := by
  have hfil : rangeFilter t.rows s e = [] :=
    List.filter_eq_nil_iff.mpr (fun r _ => by
      simp only [decide_eq_true_eq]
      intro hc
      exact absurd (le_trans hc.1 hc.2) (not_le.mpr h))
  refine ⟨hfil, ?_⟩
  simp only [orderBoardRun]
  rw [hfil]
  rfl

/-- Witness for `custom_inverted_range_amended` at a concrete input. -/
theorem custom_inverted_range_amended_witness :
    (0 : Int) < 1
    ∧ (rangeFilter exTable9.rows 1 0 = [] ∧ orderBoardRun exTable9 1 0 = .emptyWarning) :=
  ⟨by decide, custom_inverted_range_amended exTable9 1 0 (by decide)⟩

/-! ## C10: the anomaly flag (spec-modelled) -/

def exRows135 : List Row :=
  [exRow 0 0 1 1 1 100 0 0, exRow 0 0 2 2 1 100 0 0, exRow 0 0 3 3 1 135 0 0]

def exRows100 : List Row :=
  [exRow 0 0 1 1 1 100 0 0, exRow 0 0 2 2 1 100 0 0, exRow 0 0 3 3 1 100 0 0]

def exRowsTwoDates : List Row :=
  [exRow 0 0 1 1 1 100 0 0, exRow 0 0 2 2 1 100 0 0]

/-- C10 (confirmed, spec-modelled).  The anomaly flag classifies
exactly as the claim states: fewer than 3 distinct dates yields
insufficient-data; otherwise with `r` the most recent day's quantity
total and `p` the prior day's, `p = 0` yields spike when `r > 0` else
stable, and `p ≠ 0` yields spike iff `(r-p)/p*100 ≥ 30`, drop iff
`≤ -30`, else stable; daily totals [100, 100, 135] yield spike and
[100, 100, 100] yield stable (and two distinct dates only yield
insufficient-data). -/
theorem anomaly_flag_spec (l : List Row) :
    ((distinctDates l).length < 3 → anomalyFlag l = .insufficientData)
    ∧ (3 ≤ (distinctDates l).length →
        (dailyQty l (latestTwoDates l).2 = 0 →
          anomalyFlag l
            = (if 0 < dailyQty l (latestTwoDates l).1 then .spike else .stable))
        ∧ (dailyQty l (latestTwoDates l).2 ≠ 0 →
          anomalyFlag l
            = (if 30 ≤ ((dailyQty l (latestTwoDates l).1 - dailyQty l (latestTwoDates l).2 : Int) : Rat)
                  / ((dailyQty l (latestTwoDates l).2 : Int) : Rat) * 100
               then .spike
               else if ((dailyQty l (latestTwoDates l).1 - dailyQty l (latestTwoDates l).2 : Int) : Rat)
                  / ((dailyQty l (latestTwoDates l).2 : Int) : Rat) * 100 ≤ -30
               then .drop
               else .stable)))
    ∧ anomalyFlag exRows135 = .spike
    ∧ anomalyFlag exRows100 = .stable
    ∧ anomalyFlag exRowsTwoDates = .insufficientData := by
  have h135 : anomalyFlag exRows135 = .spike := by
    have h3 : ¬ (distinctDates exRows135).length < 3 := by decide
    have hlt : latestTwoDates exRows135 = (3, 2) := by decide
    have hr : dailyQty exRows135 3 = 135 := by decide
    have hp : dailyQty exRows135 2 = 100 := by decide
    simp only [anomalyFlag, if_neg h3, hlt, hr, hp]
    rw [if_neg (by decide), if_pos (by norm_num)]
  have h100 : anomalyFlag exRows100 = .stable := by
    have h3 : ¬ (distinctDates exRows100).length < 3 := by decide
    have hlt : latestTwoDates exRows100 = (3, 2) := by decide
    have hr : dailyQty exRows100 3 = 100 := by decide
    have hp : dailyQty exRows100 2 = 100 := by decide
    simp only [anomalyFlag, if_neg h3, hlt, hr, hp]
    rw [if_neg (by decide), if_neg (by norm_num), if_neg (by norm_num)]
  have h2d : anomalyFlag exRowsTwoDates = .insufficientData := by
    have h3 : (distinctDates exRowsTwoDates).length < 3 := by decide
    simp [anomalyFlag, h3]
  refine ⟨?_, ?_, h135, h100, h2d⟩
  · intro hlt
    simp [anomalyFlag, hlt]
  · intro h3
    have hnot : ¬ (distinctDates l).length < 3 := not_lt.mpr h3
    constructor
    · intro hp
      simp [anomalyFlag, hnot, hp]
    · intro hp
      simp [anomalyFlag, hnot, hp]

/-- Witness for `anomaly_flag_spec` at a concrete input. -/
theorem anomaly_flag_spec_witness :
    (distinctDates exRowsTwoDates).length < 3
    ∧ anomalyFlag exRowsTwoDates = .insufficientData :=
  ⟨by decide, (anomaly_flag_spec exRowsTwoDates).1 (by decide)⟩

/-! ## C1: weekday aggregate density and cross-aggregate marginals -/

/-- The cross-group size splits as hour-grouping inside the
weekday-filtered frame. -/
theorem countWH_eq_countOf_hour (l : List Row) (w : Fin 7) (h : Fin 24) :
    countWH l w h = countOf Row.hour (l.filter (fun r => decide (r.weekday = w))) h := by
  unfold countWH countOf2 countOf
  rw [List.filter_filter]
  congr 1
  refine List.filter_congr ?_
  intro r _
  rw [Bool.decide_and, Bool.and_comm]

/-- The cross-group size splits as weekday-grouping inside the
hour-filtered frame. -/
theorem countWH_eq_countOf_wday (l : List Row) (w : Fin 7) (h : Fin 24) :
    countWH l w h = countOf Row.weekday (l.filter (fun r => decide (r.hour = h))) w := by
  unfold countWH countOf2 countOf
  rw [List.filter_filter]
  congr 1
  refine List.filter_congr ?_
  intro r _
  rw [Bool.decide_and]

/-- A `filterMap` that never drops an element preserves the length. -/
theorem length_filterMap_of_isSome {α β : Type} (f : α → Option β) :
    ∀ (L : List α), (∀ a ∈ L, (f a).isSome) → (L.filterMap f).length = L.length := by
  intro L
  induction L with
  | nil => intro _; rfl
  | cons a t ih =>
    intro hall
    cases h : f a with
    | none =>
      exfalso
      have hs := hall a (List.mem_cons_self a t)
      rw [h] at hs
      simp at hs
    | some b =>
      rw [List.filterMap_cons, h]
      simp only [List.length_cons]
      rw [ih (fun x hx => hall x (List.mem_cons_of_mem a hx))]

/-- A single Monday row. -/
def exRows1 : List Row := [exRow 0 0 0 1 1 1 0 0]

/-- C1 (corrected), counterexample: the weekday aggregate of a one-row
table has 1 row, not 7 — `get_weekly_stats` performs no merge onto the
full weekday domain, so weekdays with no orders are absent. -/
theorem weekly_stats_not_dense_cex : (get_weekly_stats exRows1).length ≠ 7 := by
  decide

/-- C1 (corrected), amended: the weekday aggregate has AT MOST 7 rows —
exactly the weekdays that occur, with their row counts, in the fixed
周一..周日 order (so exactly 7 only when every weekday occurs); the
weekday×hour cross aggregate does have exactly 168 rows, its marginal
sums over hours equal the per-weekday row counts (hence agree with the
weekday aggregate on the weekdays it contains and are 0 exactly where a
weekday row is missing), and its marginal sums over weekdays equal the
hourly aggregate. -/
theorem weekly_cross_stats_amended (l : List Row) (p : Fin 7 × Nat) (w : Fin 7) (h : Fin 24) :
    (get_weekly_stats l).length ≤ 7
    ∧ ((get_weekly_stats l).map Prod.fst).Sublist (List.finRange 7)
    ∧ (p ∈ get_weekly_stats l ↔ countWday l p.1 = p.2 ∧ p.2 ≠ 0)
    ∧ (get_week_hour_cross_stats l).length = 168
    ∧ (∑ h2 : Fin 24, countWH l w h2) = countWday l w
    ∧ (∑ w2 : Fin 7, countWH l w2 h) = countHour l h
    ∧ (get_hourly_stats l).map Prod.snd = (List.finRange 24).map (countHour l)
    ∧ get_week_hour_cross_stats l = crossDomain.map (fun k => (k, countWH l k.1 k.2))
    ∧ ((∀ w2 : Fin 7, countWday l w2 ≠ 0) → (get_weekly_stats l).length = 7) := by
  refine ⟨?_, ?_, ?_, ?_, ?_, ?_, ?_, rfl, ?_⟩
  · calc (get_weekly_stats l).length ≤ (List.finRange 7).length :=
          List.length_filterMap_le _ _
      _ = 7 := by simp
  · exact filterMap_graph_sublist _ (fun a q hq => by
      by_cases hz : countWday l a = 0
      · simp [hz] at hq
      · simp only [if_neg hz, Option.some.injEq] at hq
        rw [← hq]) (List.finRange 7)
  · constructor
    · intro hp
      rcases List.mem_filterMap.mp hp with ⟨a, _, hfa⟩
      by_cases hz : countWday l a = 0
      · simp [hz] at hfa
      · simp only [if_neg hz, Option.some.injEq] at hfa
        refine ⟨?_, ?_⟩
        · rw [← hfa]
        · rw [← hfa]
          exact hz
    · rintro ⟨hc, hnz⟩
      refine List.mem_filterMap.mpr ⟨p.1, List.mem_finRange p.1, ?_⟩
      have hz : countWday l p.1 ≠ 0 := by rw [hc]; exact hnz
      rw [if_neg hz, hc, Prod.mk.eta]
  · simp [get_week_hour_cross_stats, crossStatsOf, crossDomain_length]
  · calc (∑ h2 : Fin 24, countWH l w h2)
        = ∑ h2 : Fin 24, countOf Row.hour (l.filter (fun r => decide (r.weekday = w))) h2 :=
          Finset.sum_congr rfl (fun h2 _ => countWH_eq_countOf_hour l w h2)
      _ = (l.filter (fun r => decide (r.weekday = w))).length := sum_countOf _ _
      _ = countWday l w := rfl
  · calc (∑ w2 : Fin 7, countWH l w2 h)
        = ∑ w2 : Fin 7, countOf Row.weekday (l.filter (fun r => decide (r.hour = h))) w2 :=
          Finset.sum_congr rfl (fun w2 _ => countWH_eq_countOf_wday l w2 h)
      _ = (l.filter (fun r => decide (r.hour = h))).length := sum_countOf _ _
      _ = countHour l h := rfl
  · simp [get_hourly_stats, hourlyStatsOf, List.map_map, Function.comp_def, countHour]
  · intro hall
    unfold get_weekly_stats
    rw [length_filterMap_of_isSome _ (List.finRange 7)
      (fun w2 _ => by simp [hall w2])]
    simp

/-- One row on each weekday: all seven weekdays observed. -/
def exRows7d : List Row :=
  [exRow 0 0 0 1 1 1 0 0, exRow 0 1 1 2 1 1 0 0, exRow 0 2 2 3 1 1 0 0,
   exRow 0 3 3 4 1 1 0 0, exRow 0 4 4 5 1 1 0 0, exRow 0 5 5 6 1 1 0 0,
   exRow 0 6 6 7 1 1 0 0]

/-- Witness for `weekly_cross_stats_amended` at a concrete input. -/
theorem weekly_cross_stats_amended_witness :
    (∀ w2 : Fin 7, countWday exRows7d w2 ≠ 0)
    ∧ (get_weekly_stats exRows7d).length = 7 :=
  ⟨by decide, (weekly_cross_stats_amended exRows7d (0, 1) 0 0).2.2.2.2.2.2.2.2 (by decide)⟩

/-- With every checked column and 订单号 present, `get_sku_ranking`
reaches the aggregation path. -/
theorem get_sku_ranking_ok (t : Table) (hall : ∀ c ∈ rankingRequiredCols, c ∈ t.cols)
    (hid : Col.orderId ∈ t.cols) : get_sku_ranking t = .ok (buildRanking t.rows) := by
  unfold get_sku_ranking
  have hnone : rankingRequiredCols.find? (fun c2 => !(decide (c2 ∈ t.cols))) = none := by
    rw [List.find?_eq_none]
    intro c hc
    simp [hall c hc]
  rw [hnone, if_pos hid]

/-! ## C4: missing required columns for the SKU aggregates -/

/-- All four checked columns present, but 订单号 absent. -/
def exTable4a : Table := ⟨[.sku, .qty, .purchase, .sale], [exRow 0 0 0 1 1 1 0 0]⟩

/-- 数量 absent (and not checked by `get_sku_multi_period`). -/
def exTable4b : Table := ⟨[.sku, .orderId, .purchase, .sale], [exRow 0 0 0 1 1 1 0 0]⟩

/-- 数量 absent: the first missing entry of `required_cols`. -/
def exTable4c : Table := ⟨[.sku, .purchase, .sale, .orderId], [exRow 0 0 0 1 1 1 0 0]⟩

/-- C4 (corrected), counterexample: a table having the four checked
columns but no 订单号 passes `get_sku_ranking`'s precondition check and
then dies with an unnamed `KeyError` — not the named missing-field
signal with an empty result that the claim requires; and
`get_sku_multi_period` checks nothing at all, so a missing 数量 also
surfaces as a `KeyError`. -/
theorem sku_missing_field_cex :
    get_sku_ranking exTable4a = .error (.keyError .orderId)
    ∧ get_sku_multi_period exTable4b 0 = .error (.keyError .qty) := by
  constructor
  · decide
  · decide

/-- C4 (corrected), amended: `get_sku_ranking` signals the named
missing-field condition (with an empty result) only for the four
checked columns SKU / 数量 / 采购总额 / 销售总额, reporting the first
absent one; a table missing only 订单号 passes the check and raises an
unnamed `KeyError` instead; and `get_sku_multi_period` performs no
precondition check at all — every column failure it produces is an
unnamed `KeyError`, never a named missing-field condition. -/
theorem sku_missing_field_amended :
    (∀ (t : Table) (c : Col),
        rankingRequiredCols.find? (fun c2 => !(decide (c2 ∈ t.cols))) = some c →
        get_sku_ranking t = .error (.missingField c))
    ∧ (∀ t : Table, (∀ c ∈ rankingRequiredCols, c ∈ t.cols) → Col.orderId ∉ t.cols →
        get_sku_ranking t = .error (.keyError .orderId))
    ∧ (∀ (t : Table) (D : Int) (e : RankErr),
        get_sku_multi_period t D = .error e → ∃ c, e = .keyError c) := by
  refine ⟨?_, ?_, ?_⟩
  · intro t c hfind
    unfold get_sku_ranking
    rw [hfind]
  · intro t hall hno
    unfold get_sku_ranking
    have hnone : rankingRequiredCols.find? (fun c2 => !(decide (c2 ∈ t.cols))) = none := by
      rw [List.find?_eq_none]
      intro c hc
      simp [hall c hc]
    rw [hnone, if_neg hno]
  · intro t D e he
    unfold get_sku_multi_period at he
    by_cases h1 : Col.sku ∈ t.cols
    · rw [if_pos h1] at he
      by_cases h2 : Col.qty ∈ t.cols
      · rw [if_pos h2] at he
        by_cases h3 : Col.orderId ∈ t.cols
        · rw [if_pos h3] at he
          by_cases h4 : Col.sale ∈ t.cols
          · rw [if_pos h4] at he
            simp at he
          · rw [if_neg h4] at he
            simp only [Except.error.injEq] at he
            exact ⟨.sale, he.symm⟩
        · rw [if_neg h3] at he
          simp only [Except.error.injEq] at he
          exact ⟨.orderId, he.symm⟩
      · rw [if_neg h2] at he
        simp only [Except.error.injEq] at he
        exact ⟨.qty, he.symm⟩
    · rw [if_neg h1] at he
      simp only [Except.error.injEq] at he
      exact ⟨.sku, he.symm⟩

/-- Witness for `sku_missing_field_amended` at a concrete input. -/
theorem sku_missing_field_amended_witness :
    rankingRequiredCols.find? (fun c2 => !(decide (c2 ∈ exTable4c.cols))) = some .qty
    ∧ get_sku_ranking exTable4c = .error (.missingField .qty) :=
  ⟨by decide, sku_missing_field_amended.1 exTable4c .qty (by decide)⟩

/-! ## C5: average unit price at zero quantity -/

/-- One SKU with quantity 0 and sale revenue 10. -/
def exRows5 : List Row := [exRow 0 0 0 1 1 0 0 10]

def exTable5 : Table := ⟨allCols, exRows5⟩

/-- The concrete ranking of `exRows5`: one SKU group. -/
theorem buildRanking_exRows5 :
    buildRanking exRows5 = [{ mkSkuRow exRows5 1 with seq := 1 }] := by
  have hkeys : skuKeys exRows5 = [1] := by decide
  unfold buildRanking
  rw [hkeys]
  rfl

/-- C5 (corrected), counterexample: for the SKU of `exRows5` whose
quantity sum is 0 and sale revenue 10, the ranking row's 平均价格 is
the float-division result `inf`, not the claimed exact 0. -/
theorem avg_price_zero_qty_cex :
    get_sku_ranking exTable5 = .ok (buildRanking exRows5)
    ∧ (buildRanking exRows5).map SkuRow.vol = [0]
    ∧ (buildRanking exRows5).map SkuRow.avgPrice = [PFloat.inf] := by
  refine ⟨?_, ?_, ?_⟩
  · exact get_sku_ranking_ok exTable5 (by decide) (by decide)
  · rw [buildRanking_exRows5]
    decide
  · rw [buildRanking_exRows5]
    simp only [List.map_cons, List.map_nil, mkSkuRow]
    have hsal : saleSum (skuRows exRows5 1) = 10 := by
      simp [saleSum, skuRows, exRows5, exRow]
    have hq : qtySum (skuRows exRows5 1) = 0 := by decide
    rw [hsal, hq]
    norm_num [PFloat.div, PFloat.round2]

/-- C5 (corrected), amended: with all required columns present the
ranking never raises; for every SKU row whose quantity sum is 0 the
平均价格 is the IEEE float-division outcome — `inf` for positive
revenue, `-inf` for negative, `NaN` for zero revenue — never the
claimed exact 0 and never a raised division error. -/
theorem avg_price_zero_qty_amended :
    (∀ t : Table, (∀ c ∈ rankingRequiredCols, c ∈ t.cols) → Col.orderId ∈ t.cols →
        get_sku_ranking t = .ok (buildRanking t.rows))
    ∧ (∀ (l : List Row) (x : SkuRow), x ∈ buildRanking l → x.vol = 0 →
        x.avgPrice = (if 0 < saleSum (skuRows l x.sku) then PFloat.inf
          else if saleSum (skuRows l x.sku) < 0 then PFloat.negInf
          else PFloat.nan)) := by
  constructor
  · exact get_sku_ranking_ok
  · intro l x hx hvol
    unfold buildRanking at hx
    rcases List.mem_map.mp hx with ⟨pr, hpr, hxpr⟩
    have hy : pr.2 ∈ List.insertionSort (fun a b => b.vol ≤ a.vol)
        ((skuKeys l).map (mkSkuRow l)) := by
      have hm := List.mem_map_of_mem Prod.snd hpr
      rwa [List.enum_map_snd] at hm
    have hy2 : pr.2 ∈ (skuKeys l).map (mkSkuRow l) :=
      (List.perm_insertionSort _ _).mem_iff.mp hy
    rcases List.mem_map.mp hy2 with ⟨s, _, hs⟩
    have hxv : x.vol = qtySum (skuRows l s) := by
      rw [← hxpr, ← hs]
      rfl
    have hxa : x.avgPrice
        = PFloat.round2 (PFloat.div (.val (saleSum (skuRows l s)))
            (.val ((qtySum (skuRows l s) : Int) : Rat))) := by
      rw [← hxpr, ← hs]
      rfl
    have hq0 : qtySum (skuRows l s) = 0 := by rw [← hxv]; exact hvol
    have hcast : ((qtySum (skuRows l s) : Int) : Rat) = 0 := by
      rw [hq0]
      exact Int.cast_zero
    have hxsku : x.sku = s := by
      rw [← hxpr, ← hs]
      rfl
    rw [hxsku, hxa, hcast]
    simp only [PFloat.div, if_true]
    by_cases h1 : 0 < saleSum (skuRows l s)
    · rw [if_pos h1]
      rfl
    · rw [if_neg h1]
      by_cases h2 : saleSum (skuRows l s) < 0
      · rw [if_pos h2]
        rfl
      · rw [if_neg h2]
        rfl

/-- Witness for `avg_price_zero_qty_amended` at a concrete input. -/
theorem avg_price_zero_qty_amended_witness :
    ({ mkSkuRow exRows5 1 with seq := 1 } : SkuRow) ∈ buildRanking exRows5
    ∧ ({ mkSkuRow exRows5 1 with seq := 1 } : SkuRow).vol = 0
    ∧ ({ mkSkuRow exRows5 1 with seq := 1 } : SkuRow).avgPrice
        = (if 0 < saleSum (skuRows exRows5
              ({ mkSkuRow exRows5 1 with seq := 1 } : SkuRow).sku)
           then PFloat.inf
           else if saleSum (skuRows exRows5
              ({ mkSkuRow exRows5 1 with seq := 1 } : SkuRow).sku) < 0
           then PFloat.negInf
           else PFloat.nan) :=
  ⟨by rw [buildRanking_exRows5]; exact List.mem_cons_self _ _,
   by decide,
   avg_price_zero_qty_amended.2 exRows5 _
     (by rw [buildRanking_exRows5]; exact List.mem_cons_self _ _) (by decide)⟩

/-! ## C7: the metric-card percentage changes at zero yesterday -/

/-- Float division of a finite value by literal zero, by sign. -/
theorem PFloat_div_val_zero (t : Rat) : PFloat.div (.val t) (.val 0) = pctAtZero t := by
  unfold pctAtZero
  simp only [PFloat.div, if_true]

/-- Multiplying a division-by-zero outcome by the positive literal 100
changes nothing. -/
theorem PFloat_mul_pctAtZero_100 (t : Rat) :
    PFloat.mul (pctAtZero t) (.val 100) = pctAtZero t := by
  unfold pctAtZero
  by_cases h1 : 0 < t
  · rw [if_pos h1]
    simp only [PFloat.mul]
    rw [if_pos (by norm_num : (0 : Rat) < 100)]
  · by_cases h2 : t < 0
    · rw [if_neg h1, if_pos h2]
      simp only [PFloat.mul]
      rw [if_pos (by norm_num : (0 : Rat) < 100)]
    · rw [if_neg h1, if_neg h2]
      rfl

/-- A card whose operands are numpy scalars with yesterday 0 evaluates
to the IEEE outcome given by the sign of today's value — no exception. -/
theorem pctCard_np_zero (t : Rat) :
    pctCard (.np (.val t)) (.np (.val 0)) = .ok (.np (pctAtZero t)) := by
  unfold pctCard
  simp only [PyNum.sub, PFloat.sub, sub_zero, PyNum.div, PFloat_div_val_zero, PyNum.mul,
    PFloat_mul_pctAtZero_100]

/-- A card whose operands are both plain Python numbers with yesterday
0 raises `ZeroDivisionError`. -/
theorem pctCard_py_zero (t : Rat) : pctCard (.py t) (.py 0) = .error .zeroDivision := by
  unfold pctCard
  simp only [PyNum.sub, PyNum.div, if_true]

/-- A card dividing a numpy float by the plain Python int 0 is handled
by numpy: the IEEE outcome, no exception. -/
theorem pctCard_np_py_zero (t : Rat) :
    pctCard (.np (.val t)) (.py 0) = .ok (.np (pctAtZero t)) := by
  unfold pctCard
  simp only [PyNum.sub, PFloat.sub, sub_zero, PyNum.div, PFloat_div_val_zero, PyNum.mul,
    PFloat_mul_pctAtZero_100]

/-- One order on day 10 (quantity 2, revenue 10); nothing on day 9. -/
def exRows7 : List Row := [exRow 0 0 10 1 1 2 0 10]

/-- C7 (corrected), counterexample: with yesterday (day 9) empty, no
percentage change is rendered as a sentinel — every division is
evaluated: the 销量 and 销售额 cards (numpy sums) and the 销售均价
card (numpy float over the Python int 0) render the IEEE result `inf`,
and the 订单量 card divides two plain Python ints by zero and raises an
uncaught `ZeroDivisionError`. -/
theorem pct_card_sentinel_cex :
    salesCards (get_sales_metrics exRows7 10 9 3)
      = (.ok (.np .inf), .ok (.np .inf), .error .zeroDivision, .ok (.np .inf)) := by
  have hm : get_sales_metrics exRows7 10 9 3
      = ⟨2, 10, 1, .np (.val 5), 0, 0, 0, .py 0, 0, 0, 0, .py 0⟩ := by
    unfold get_sales_metrics
    norm_num [rowsOnDate, qtySum, saleSum, nuniqueOrders, exRows7, exRow]
  rw [hm]
  unfold salesCards
  rw [show ((2 : Int) : Rat) = 2 from by norm_num,
    show ((0 : Int) : Rat) = 0 from Int.cast_zero,
    show ((1 : Nat) : Rat) = 1 from by norm_num,
    show ((0 : Nat) : Rat) = 0 from Nat.cast_zero]
  rw [pctCard_np_zero, pctCard_np_zero, pctCard_py_zero, pctCard_np_py_zero]
  have hpos : ∀ t : Rat, 0 < t → pctAtZero t = .inf := fun t ht => by
    unfold pctAtZero
    rw [if_pos ht]
  rw [hpos 2 (by norm_num), hpos 10 (by norm_num), hpos 5 (by norm_num)]

/-- C7 (corrected), amended: when yesterday's filtered rows are empty,
every yesterday metric is 0 (the average price being the plain Python
int 0) and no card shows a sentinel: the 销量 and 销售额 cards
evaluate the numpy division to `inf` / `-inf` / `NaN` by the sign of
today's value; the 订单量 card divides plain Python ints and raises an
uncaught `ZeroDivisionError`; the 销售均价 card raises
`ZeroDivisionError` when today's average is also the Python int 0
(today's quantity sum not positive) and evaluates to the IEEE outcome
of today's average otherwise. -/
theorem pct_card_div_by_zero_amended (l : List Row) (td yd lw : Int)
    (h : rowsOnDate l yd = []) :
    (get_sales_metrics l td yd lw).ydaySales = 0
    ∧ (get_sales_metrics l td yd lw).ydayRevenue = 0
    ∧ (get_sales_metrics l td yd lw).ydayOrders = 0
    ∧ (get_sales_metrics l td yd lw).ydayAvgPrice = .py 0
    ∧ (salesCards (get_sales_metrics l td yd lw)).1
        = .ok (.np (pctAtZero ((get_sales_metrics l td yd lw).todaySales : Rat)))
    ∧ (salesCards (get_sales_metrics l td yd lw)).2.1
        = .ok (.np (pctAtZero (get_sales_metrics l td yd lw).todayRevenue))
    ∧ (salesCards (get_sales_metrics l td yd lw)).2.2.1 = .error .zeroDivision
    ∧ (¬ 0 < qtySum (rowsOnDate l td) →
        (salesCards (get_sales_metrics l td yd lw)).2.2.2 = .error .zeroDivision)
    ∧ (0 < qtySum (rowsOnDate l td) →
        (salesCards (get_sales_metrics l td yd lw)).2.2.2
          = .ok (.np (pctAtZero
              (saleSum (rowsOnDate l td) / (qtySum (rowsOnDate l td) : Rat))))) := by
  have hs : (get_sales_metrics l td yd lw).ydaySales = 0 := by
    simp [get_sales_metrics, h, qtySum]
  have hr : (get_sales_metrics l td yd lw).ydayRevenue = 0 := by
    simp [get_sales_metrics, h, saleSum]
  have ho : (get_sales_metrics l td yd lw).ydayOrders = 0 := by
    simp [get_sales_metrics, h, nuniqueOrders]
  have ha : (get_sales_metrics l td yd lw).ydayAvgPrice = .py 0 := by
    simp [get_sales_metrics, h, qtySum]
  refine ⟨hs, hr, ho, ha, ?_, ?_, ?_, ?_, ?_⟩
  · unfold salesCards
    rw [hs, Int.cast_zero, pctCard_np_zero]
  · unfold salesCards
    rw [hr, pctCard_np_zero]
  · unfold salesCards
    rw [ho, Nat.cast_zero, pctCard_py_zero]
  · intro hno
    have hta : (get_sales_metrics l td yd lw).todayAvgPrice = .py 0 := by
      simp [get_sales_metrics, hno]
    unfold salesCards
    rw [hta, ha, pctCard_py_zero]
  · intro hyes
    have hta : (get_sales_metrics l td yd lw).todayAvgPrice
        = .np (.val (saleSum (rowsOnDate l td) / (qtySum (rowsOnDate l td) : Rat))) := by
      simp [get_sales_metrics, hyes]
    unfold salesCards
    rw [hta, ha, pctCard_np_py_zero]

/-- Witness for `pct_card_div_by_zero_amended` at a concrete input. -/
theorem pct_card_div_by_zero_amended_witness :
    rowsOnDate exRows7 9 = []
    ∧ (get_sales_metrics exRows7 10 9 3).ydaySales = 0
    ∧ (salesCards (get_sales_metrics exRows7 10 9 3)).2.2.1 = .error .zeroDivision :=
  ⟨by decide, (pct_card_div_by_zero_amended exRows7 10 9 3 (by decide)).1,
   (pct_card_div_by_zero_amended exRows7 10 9 3 (by decide)).2.2.2.2.2.2.1⟩

/-! ## C6: a SKU active only in the trailing-30 window -/

/-- The columns the multi-period aggregation accesses. -/
def multiAccessCols : List Col := [.sku, .qty, .orderId, .sale]

/-- Filtering a window frame down to a SKU group is empty whenever all
of that SKU's rows fail the window predicate. -/
theorem skuRows_window_nil (l : List Row) (s : Nat) (q : Row → Bool)
    (hq : ∀ r ∈ l, r.sku = s → ¬ q r = true) :
    skuRows (l.filter q) s = [] := by
  unfold skuRows
  rw [List.filter_filter]
  refine List.filter_eq_nil_iff.mpr ?_
  intro r hr
  simp only [Bool.and_eq_true, decide_eq_true_eq]
  rintro ⟨h1, h2⟩
  exact hq r hr h1 h2

/-- C6 (confirmed).  A SKU with activity only inside the trailing-30
window `[D-29, D]` and in none of the other five windows appears
exactly once in the joined multi-period output, with value zero for
every metric of every other window. -/
theorem multi_period_thirty_only (t : Table) (D : Int) (s : Nat)
    (hc : ∀ c ∈ multiAccessCols, c ∈ t.cols)
    (hex : ∃ r ∈ t.rows, r.sku = s ∧ D - 29 ≤ r.orderDate ∧ r.orderDate ≤ D)
    (honly : ∀ r ∈ t.rows, r.sku = s →
      r.orderDate ≠ D ∧ r.orderDate ≠ D - 1 ∧ r.orderDate ≠ D - 7
      ∧ ¬(D - 6 ≤ r.orderDate ∧ r.orderDate ≤ D)
      ∧ ¬(D - 13 ≤ r.orderDate ∧ r.orderDate ≤ D)) :
    get_sku_multi_period t D = .ok (buildMulti t.rows D)
    ∧ ((buildMulti t.rows D).filter (fun m => decide (m.sku = s))).length = 1
    ∧ ∀ m ∈ buildMulti t.rows D, m.sku = s →
        m.todayVol = 0 ∧ m.todayOrders = 0 ∧ m.todayRev = 0
        ∧ m.ydayVol = 0 ∧ m.ydayOrders = 0 ∧ m.ydayRev = 0
        ∧ m.lwVol = 0 ∧ m.lwOrders = 0 ∧ m.lwRev = 0
        ∧ m.vol7 = 0 ∧ m.vol14 = 0 := by
  obtain ⟨r, hr, hsku, h29, hD⟩ := hex
  have h30 : s ∈ (trailingRows t.rows D 29).map Row.sku := by
    refine List.mem_map.mpr ⟨r, ?_, hsku⟩
    exact List.mem_filter.mpr ⟨hr, by simp [h29, hD]⟩
  have hdom : s ∈ skuDomain t.rows D := by
    unfold skuDomain
    refine (List.perm_insertionSort _ _).mem_iff.mpr ?_
    refine List.mem_dedup.mpr ?_
    exact List.mem_append_right _ h30
  have hnd : (skuDomain t.rows D).Nodup := by
    unfold skuDomain
    exact (List.perm_insertionSort _ _).nodup_iff.mpr (List.nodup_dedup _)
  refine ⟨?_, ?_, ?_⟩
  · unfold get_sku_multi_period
    rw [if_pos (hc Col.sku (by decide)), if_pos (hc Col.qty (by decide)),
      if_pos (hc Col.orderId (by decide)), if_pos (hc Col.sale (by decide))]
  · unfold buildMulti
    rw [List.filter_map]
    have hpred : ((fun m : MultiRow => decide (m.sku = s)) ∘ (mkMultiRow t.rows D))
        = fun x => decide (x = s) := rfl
    rw [hpred, filter_decide_eq_singleton hnd hdom]
    simp
  · intro m hm hms
    rcases List.mem_map.mp hm with ⟨x, _, hmk⟩
    have hxs : x = s := by
      have hx2 : m.sku = x := by
        rw [← hmk]
        rfl
      rw [← hx2, hms]
    rw [hxs] at hmk
    have e1 : skuRows (rowsOnDate t.rows D) s = [] :=
      skuRows_window_nil t.rows s (fun r2 => decide (r2.orderDate = D))
        (fun r2 hr2 hsk => by simp [(honly r2 hr2 hsk).1])
    have e2 : skuRows (rowsOnDate t.rows (D - 1)) s = [] :=
      skuRows_window_nil t.rows s (fun r2 => decide (r2.orderDate = D - 1))
        (fun r2 hr2 hsk => by simp [(honly r2 hr2 hsk).2.1])
    have e3 : skuRows (rowsOnDate t.rows (D - 7)) s = [] :=
      skuRows_window_nil t.rows s (fun r2 => decide (r2.orderDate = D - 7))
        (fun r2 hr2 hsk => by simp [(honly r2 hr2 hsk).2.2.1])
    have e4 : skuRows (trailingRows t.rows D 6) s = [] :=
      skuRows_window_nil t.rows s
        (fun r2 => decide (D - 6 ≤ r2.orderDate ∧ r2.orderDate ≤ D))
        (fun r2 hr2 hsk => by
          simp only [decide_eq_true_eq]
          exact (honly r2 hr2 hsk).2.2.2.1)
    have e5 : skuRows (trailingRows t.rows D 13) s = [] :=
      skuRows_window_nil t.rows s
        (fun r2 => decide (D - 13 ≤ r2.orderDate ∧ r2.orderDate ≤ D))
        (fun r2 hr2 hsk => by
          simp only [decide_eq_true_eq]
          exact (honly r2 hr2 hsk).2.2.2.2)
    rw [← hmk]
    simp only [mkMultiRow]
    rw [e1, e2, e3, e4, e5]
    exact ⟨rfl, rfl, rfl, rfl, rfl, rfl, rfl, rfl, rfl, rfl, rfl⟩

/-- One SKU-5 order 20 days before the reference date. -/
def exRows6 : List Row := [exRow 0 0 (-20) 1 5 3 0 7]

def exTable6 : Table := ⟨allCols, exRows6⟩

/-- Witness for `multi_period_thirty_only` at a concrete input. -/
theorem multi_period_thirty_only_witness :
    (∃ r ∈ exTable6.rows, r.sku = 5 ∧ (0 : Int) - 29 ≤ r.orderDate ∧ r.orderDate ≤ 0)
    ∧ get_sku_multi_period exTable6 0 = .ok (buildMulti exTable6.rows 0)
    ∧ ((buildMulti exTable6.rows 0).filter (fun m => decide (m.sku = 5))).length = 1 :=
  ⟨by decide,
   (multi_period_thirty_only exTable6 0 5 (by decide) (by decide) (by decide)).1,
   (multi_period_thirty_only exTable6 0 5 (by decide) (by decide) (by decide)).2.1⟩
